import Mathlib

/-!
Verification development for the discord-comfyui repository.

The embedding covers:
* `comfyui_client.py` — `wait_for_completion` (the completion detector over
  websocket frames), `_poll_history` (the polling fallback), and the cached
  metadata fetchers `get_samplers` / `get_schedulers`;
* `workflow_processor.py` — placeholder substitution (`replace_placeholders`,
  `replace_string_placeholders`, `process_workflow`);
* `main.py` — the task queue (`process_queue`, the `/comfy` enqueue path and
  the `queue_cleanup_task` watchdog) as a labelled transition system.

JSON values passed around by the Python code are modelled by the mutual
inductive `JVal`/`JArr`/`JObj` below; Python `dict.get` becomes `JVal.get`
(returning `Option`), `dict.get(k, {})` becomes `JVal.getD`, and Python
truthiness becomes `truthy`.
-/

mutual

inductive JVal : Type where
  | null : JVal
  | bool : Bool → JVal
  | num : Int → JVal
  | str : String → JVal
  | arr : JArr → JVal
  | obj : JObj → JVal
deriving DecidableEq

inductive JArr : Type where
  | nil : JArr
  | cons : JVal → JArr → JArr
deriving DecidableEq

inductive JObj : Type where
  | nil : JObj
  | cons : String → JVal → JObj → JObj
deriving DecidableEq

end

/-- Python `dict.get(key)`: first binding of `key`, `None` (here `none`) when
absent.  Keys of JSON objects produced by the backend are unique, so
first-match lookup models Python dict lookup. -/
def JObj.get : JObj → String → Option JVal
  | .nil, _ => none
  | .cons k v rest, key => if k = key then some v else JObj.get rest key

/-- Python `dict.get(key)` lifted to a JSON value; lookups on non-objects yield
`none`. -/
def JVal.get : JVal → String → Option JVal
  | .obj o, k => o.get k
  | _, _ => none

/-- Python `dict.get(key, {})`. -/
def JVal.getD (j : JVal) (k : String) : JVal :=
  match j.get k with
  | some v => v
  | none => .obj .nil

/-- Python `key in dict`. -/
def JVal.hasKey (j : JVal) (k : String) : Bool :=
  (j.get k).isSome

/-- Python truthiness of a JSON value. -/
def truthy : JVal → Bool
  | .null => false
  | .bool b => b
  | .num n => decide (n ≠ 0)
  | .str s => decide (s ≠ "")
  | .arr .nil => false
  | .arr _ => true
  | .obj .nil => false
  | .obj _ => true

/-- Truthiness of the result of a `dict.get` (Python `None` is falsy). -/
def truthyOpt : Option JVal → Bool
  | none => false
  | some v => truthy v

/-- Python `x == 0` for a JSON value (`False == 0` holds in Python). -/
def pyEqZero : JVal → Bool
  | .num n => decide (n = 0)
  | .bool b => !b
  | _ => false

/-- Model of `isinstance(value, list) and value and isinstance(value[0], dict) and
'filename' in value[0]` — the per-value artifact-listing test from
`wait_for_completion`, line 258 of `comfyui_client.py`. -/
def listingHead : JVal → Bool
  | .arr (.cons (.obj fo) _) => (JObj.get fo "filename").isSome
  | _ => false

/-- Model of `any(... for value in output_data.values())`. -/
def objAnyValue (p : JVal → Bool) : JObj → Bool
  | .nil => false
  | .cons _ v rest => p v || objAnyValue p rest

/-- Flag `has_images` from `wait_for_completion`: some value of the node output is
a non-empty list whose first record carries a `filename` field. -/
def hasImages : JVal → Bool
  | .obj o => objAnyValue listingHead o
  | _ => false

/-- The detector's mutable loop state inside `wait_for_completion`:
`queue_remaining` (initially `None`) and the `finished_nodes` set. -/
structure CState where
  queueRemaining : Option JVal
  finishedNodes : List JVal
deriving DecidableEq

/-- Model of `finished_nodes.add(node_id)` (set insertion). -/
def addNode (st : CState) (n : JVal) : CState :=
  if n ∈ st.finishedNodes then st else { st with finishedNodes := n :: st.finishedNodes }

/-- Outcome of processing one loop iteration of `wait_for_completion`. -/
inductive StepRes where
  | cont (st : CState)
  | resolve (ok : Bool) (outputs : Option JVal)
  | fallback
deriving DecidableEq

/-- Processing of one parsed websocket frame `m` by the body of
`wait_for_completion` (lines 243–298 of `comfyui_client.py`).  `hist` is the
value `get_history(prompt_id)` would return at this instant. -/
def procMsg (promptId : String) (st : CState) (m : JVal) (hist : JVal) : StepRes :=
  let msgType := m.get "type"
  if msgType = some (.str "executed") then
    let msgData := m.getD "data"
    let pid := msgData.get "prompt_id"
    if truthyOpt pid = true ∧ pid ≠ some (.str promptId) then .cont st
    else
      let nodeId := msgData.get "node"
      let st1 :=
        match nodeId with
        | some n => if truthy n then addNode st n else st
        | none => st
      let hasImgs := hasImages (msgData.getD "output")
      let qrZero :=
        match st.queueRemaining with
        | some v => pyEqZero v
        | none => false
      if (hasImgs || qrZero) && truthy hist then
        .resolve true (some (hist.getD "outputs"))
      else if (nodeId = none ∨ nodeId = some .null) ∧ truthy hist = true then
        .resolve true (some (hist.getD "outputs"))
      else .cont st1
  else if msgType = some (.str "status") then
    let statusData := m.getD "data"
    let execInfo := (statusData.getD "status").getD "exec_info"
    match execInfo with
    | .obj o =>
      match o.get "queue_remaining" with
      | some qr =>
        if pyEqZero qr = true ∧ st.finishedNodes ≠ [] ∧ truthy hist = true then
          .resolve true (some (hist.getD "outputs"))
        else .cont { st with queueRemaining := some qr }
      | none => .cont st
    | _ => .cont st
  else if msgType = some (.str "execution_error") then
    .resolve false none
  else .cont st

/-- One receive attempt inside the websocket loop: a 5s sub-timeout
(`asyncio.TimeoutError`, loop continues), a JSON decode error (loop
continues), a parsed frame, or a transport error escaping to the outer
`except` (which falls back to polling). -/
inductive Recv where
  | timeout
  | badJson
  | msg (m : JVal)
  | err
deriving DecidableEq

/-- Environment trace entry for one iteration of the websocket loop:
the elapsed event-loop time at the top-of-loop check, the receive outcome,
and the history record the backend would serve during this iteration. -/
structure WStep where
  elapsed : ℚ
  recv : Recv
  hist : JVal
deriving DecidableEq

/-- One iteration of the `while True` loop of `wait_for_completion`: the
overall-timeout check (`elapsed > timeout`, line 232) followed by the
receive and frame processing. -/
def wsStep (promptId : String) (timeout : ℚ) (st : CState) (s : WStep) : StepRes :=
  if s.elapsed > timeout then .resolve false none
  else
    match s.recv with
    | .timeout => .cont st
    | .badJson => .cont st
    | .err => .fallback
    | .msg m => procMsg promptId st m s.hist

/-- Result of running the websocket loop over a finite environment trace. -/
inductive WaitOut where
  | resolved (ok : Bool) (outputs : Option JVal)
  | fallback
  | exhausted
deriving DecidableEq

/-- The websocket loop of `wait_for_completion`, folded over an environment
trace.  `exhausted` means the trace ended with the loop still listening. -/
def wsLoop (promptId : String) (timeout : ℚ) : CState → List WStep → WaitOut
  | _, [] => .exhausted
  | st, s :: rest =>
    match wsStep promptId timeout st s with
    | .cont st1 => wsLoop promptId timeout st1 rest
    | .resolve ok o => .resolved ok o
    | .fallback => .fallback

/-- Environment trace entry for one iteration of `_poll_history`: elapsed
time since the poll loop started, and the history record served. -/
structure PStep where
  elapsed : ℚ
  hist : JVal
deriving DecidableEq

/-- Model of `_poll_history` (lines 312–326 of `comfyui_client.py`): timeout check
(`elapsed > timeout`), then `if history and 'outputs' in history` resolve
success with `history['outputs']`, else sleep 2s and loop. -/
def pollLoop (timeout : ℚ) : List PStep → Option (Bool × Option JVal)
  | [] => none
  | s :: rest =>
    if s.elapsed > timeout then some (false, none)
    else if truthy s.hist && s.hist.hasKey "outputs" then
      some (true, some (s.hist.getD "outputs"))
    else pollLoop timeout rest

/-- Model of `wait_for_completion` at top level: if the websocket connection cannot be
opened (`connectOk = false`), or the loop raises a transport error
(`WaitOut.fallback`), the outer `except` runs `_poll_history`
(line 310).  `none` means the listening loop outlived the trace. -/
def wait_for_completion (promptId : String) (timeout : ℚ) (connectOk : Bool)
    (steps : List WStep) (pollSteps : List PStep) : Option (Bool × Option JVal) :=
  if connectOk = false then pollLoop timeout pollSteps
  else
    match wsLoop promptId timeout ⟨none, []⟩ steps with
    | .resolved ok o => some (ok, o)
    | .fallback => pollLoop timeout pollSteps
    | .exhausted => none

/-! ## Metadata fetchers (`get_samplers` / `get_schedulers`) -/

/-- Build a JSON array out of a list of values. -/
def JArr.ofList : List JVal → JArr
  | [] => .nil
  | x :: xs => .cons x (JArr.ofList xs)

/-- Build a JSON array of strings. -/
def strList (l : List String) : JVal :=
  .arr (JArr.ofList (l.map .str))

/-- The hard-coded sampler list used when the schema lookup finds nothing
(`comfyui_client.py` lines 66–72). -/
def defaultSamplersFull : JVal :=
  strList ["euler", "euler_ancestral", "heun", "heunpp2", "dpm_2",
    "dpm_2_ancestral", "lms", "dpm_fast", "dpm_adaptive",
    "dpmpp_2s_ancestral", "dpmpp_sde", "dpmpp_sde_gpu",
    "dpmpp_2m", "dpmpp_2m_sde", "dpmpp_2m_sde_gpu",
    "dpmpp_3m_sde", "dpmpp_3m_sde_gpu", "ddpm", "lcm", "ddim", "uni_pc", "uni_pc_bh2"]

/-- The hard-coded sampler list used when `get_object_info` raises
(`comfyui_client.py` line 78). -/
def defaultSamplersErr : JVal :=
  strList ["euler", "euler_ancestral", "dpmpp_2m", "dpmpp_sde", "ddim"]

/-- The hard-coded scheduler list used when the schema lookup finds nothing
(`comfyui_client.py` lines 101–104). -/
def defaultSchedulersFull : JVal :=
  strList ["normal", "karras", "exponential", "sgm_uniform",
    "simple", "ddim_uniform", "beta"]

/-- The hard-coded scheduler list used when `get_object_info` raises
(`comfyui_client.py` line 110). -/
def defaultSchedulersErr : JVal :=
  strList ["normal", "karras", "exponential", "simple"]

/-- Model of `isinstance(x, list) and len(x) > 0`. -/
def isNonemptyList : JVal → Bool
  | .arr (.cons _ _) => true
  | _ => false

/-- First element of a JSON array (only used under `isNonemptyList`). -/
def headOf : JVal → JVal
  | .arr (.cons x _) => x
  | _ => .null

/-- The schema extraction in `get_samplers`/`get_schedulers`
(`comfyui_client.py` lines 55–62 and 90–97), parametrised by the field
name (`sampler_name` or `scheduler`):
`object_info['KSampler']['input']['required'].get(field)`, accepted when
truthy, a list and non-empty; the accepted value is its first element. -/
def extractField (field : String) (info : JVal) : Option JVal :=
  if info.hasKey "KSampler" then
    let ks := info.getD "KSampler"
    if ks.hasKey "input" ∧ (ks.getD "input").hasKey "required" then
      match ((ks.getD "input").getD "required").get field with
      | some fv =>
        if truthy fv ∧ isNonemptyList fv = true then some (headOf fv) else none
      | none => none
    else none
  else none

/-- Model of `get_samplers` (lines 46–79): argument `cache` is the `_samplers` field
before the call, `fetch` the outcome of `get_object_info` (`.error` models
any raised exception).  Returns the result list and the `_samplers` field
after the call. -/
def get_samplers (cache : Option JVal) (fetch : Except Unit JVal) : JVal × Option JVal :=
  match cache with
  | some l => (l, some l)
  | none =>
    match fetch with
    | .error _ => (defaultSamplersErr, some defaultSamplersErr)
    | .ok info =>
      match extractField "sampler_name" info with
      | some v => (v, some v)
      | none => (defaultSamplersFull, some defaultSamplersFull)

/-- Model of `get_schedulers` (lines 81–111), same shape as `get_samplers`. -/
def get_schedulers (cache : Option JVal) (fetch : Except Unit JVal) : JVal × Option JVal :=
  match cache with
  | some l => (l, some l)
  | none =>
    match fetch with
    | .error _ => (defaultSchedulersErr, some defaultSchedulersErr)
    | .ok info =>
      match extractField "scheduler" info with
      | some v => (v, some v)
      | none => (defaultSchedulersFull, some defaultSchedulersFull)

/-! ## Workflow processor (`workflow_processor.py`) -/

/-- Python `str()` of a parameter value as it appears in mixed-text
placeholder substitution.  Workflow parameters are strings and integers;
the container cases are schematic. -/
def pyStr : JVal → String
  | .str s => s
  | .num n => toString n
  | .bool true => "True"
  | .bool false => "False"
  | .null => "None"
  | .arr _ => "[...]"
  | .obj _ => "\x7b...\x7d"

/-- A `\w` character of the placeholder regex `%(\w+)%`. -/
def isWordChar (c : Char) : Bool := c.isAlphanum || c = '_'

/-- Model of `re.finditer(r'%(\w+)%', text)`: the placeholder names matched, in
order, non-overlapping, scanning left to right.  Since `%` is not a word
character, the greedy `\w+` run followed by a literal `%` needs no
backtracking. -/
def scanPH : List Char → List String
  | [] => []
  | '%' :: rest =>
    let name := rest.takeWhile isWordChar
    if name.isEmpty then scanPH rest
    else
      match h : rest.drop name.length with
      | '%' :: rest2 => name.asString :: scanPH rest2
      | _ => scanPH rest
  | _ :: rest => scanPH rest
termination_by l => l.length
decreasing_by
  all_goals simp_wf
  all_goals
    have hl := congrArg List.length h
    simp only [List.length_drop, List.length_cons] at hl
    omega

/-- Full text `match.group(0)` of a placeholder name: the full `%name%` text. -/
def phFull (name : String) : String := "%" ++ name ++ "%"

/-- Python dict lookup in the parameter dictionary. -/
def lookupParam (params : List (String × JVal)) (name : String) : Option JVal :=
  match params with
  | [] => none
  | (k, v) :: rest => if k = name then some v else lookupParam rest name

/-- The replacement loop of `replace_string_placeholders` (lines 59–65):
for each match in order, if the name is a parameter, replace every
occurrence of the full `%name%` text by `str(value)` in the evolving
result. -/
def substAll (params : List (String × JVal)) : String → List String → String
  | text, [] => text
  | text, name :: rest =>
    let t2 :=
      match lookupParam params name with
      | some v => text.replace (phFull name) (pyStr v)
      | none => text
    substAll params t2 rest

/-- Model of `replace_string_placeholders` (lines 31–67): no match returns the text;
a single match spanning the whole text returns the parameter value with its
type preserved (or the text when the name is not a parameter); otherwise
string substitution of each matched placeholder. -/
def replace_string_placeholders (text : String) (params : List (String × JVal)) : JVal :=
  match scanPH text.toList with
  | [] => .str text
  | [name] =>
    if text = phFull name then
      match lookupParam params name with
      | some v => v
      | none => .str text
    else .str (substAll params text [name])
  | ms => .str (substAll params text ms)

mutual

/-- Model of `replace_placeholders` (lines 7–29): dict and list comprehensions build
fresh containers; strings go through `replace_string_placeholders`; other
values are returned as they are. -/
def replace_placeholders (v : JVal) (params : List (String × JVal)) : JVal :=
  match v with
  | .obj o => .obj (replaceObj o params)
  | .arr a => .arr (replaceArr a params)
  | .str s => replace_string_placeholders s params
  | other => other

/-- The list comprehension branch of `replace_placeholders`. -/
def replaceArr (a : JArr) (params : List (String × JVal)) : JArr :=
  match a with
  | .nil => .nil
  | .cons x rest => .cons (replace_placeholders x params) (replaceArr rest params)

/-- The dict comprehension branch of `replace_placeholders`. -/
def replaceObj (o : JObj) (params : List (String × JVal)) : JObj :=
  match o with
  | .nil => .nil
  | .cons k x rest => .cons k (replace_placeholders x params) (replaceObj rest params)

end

mutual

/-- Model of `copy.deepcopy` on JSON-like data: a structural copy. -/
def deepcopy : JVal → JVal
  | .null => .null
  | .bool b => .bool b
  | .num n => .num n
  | .str s => .str s
  | .arr a => .arr (deepcopyArr a)
  | .obj o => .obj (deepcopyObj o)

/-- Model of `deepcopy` on array contents. -/
def deepcopyArr : JArr → JArr
  | .nil => .nil
  | .cons x rest => .cons (deepcopy x) (deepcopyArr rest)

/-- Model of `deepcopy` on object contents. -/
def deepcopyObj : JObj → JObj
  | .nil => .nil
  | .cons k x rest => .cons k (deepcopy x) (deepcopyObj rest)

end

/-- Model of `process_workflow` (lines 69–86): deep-copy the template, then replace
all placeholders in the copy. -/
def process_workflow (workflow_template : JVal) (params : List (String × JVal)) : JVal :=
  replace_placeholders (deepcopy workflow_template) params

/-! ## Task queue (`main.py`)

`main.py` keeps a global `task_queue` (a deque, appended on the right by the
`/comfy` command and the panel, popped on the left by `process_queue`), a
global `is_generating` flag, and `queue_lock`.  `process_queue` tasks are
spawned by `asyncio.create_task` from the enqueue paths, from the `finally`
block of a finishing run, and from the `queue_cleanup_task` watchdog.

The model below is a labelled transition system over `QState`.  Jobs are
numbered by arrival.  Asyncio interleaves coroutines only at `await`
points, and the critical section of `process_queue` (lines 197–202: check
`is_generating`/emptiness, set the flag, pop the head) contains no `await`,
so it is one atomic transition, as is the `finally` block (lines 262–267:
clear the flag, re-spawn when the queue is non-empty).  `triggers` counts
the spawned `process_queue` tasks that have not yet run their critical
section; `running` lists the jobs popped but not yet resolved (kept as a
list so that single-flight is a provable property, not a typing
artifact). -/

/-- The three ways a per-job run resolves: success (lines 212–239), an
`asyncio.timeout` expiry (lines 241–248), or any other exception
(lines 250–260).  All are delivered to the job's interaction sink. -/
inductive Outcome where
  | success
  | failure
  | timeout
deriving DecidableEq

/-- Global queue state of `main.py`. -/
structure QState where
  queue : List Nat
  generating : Bool
  running : List Nat
  delivered : List (Nat × Outcome)
  enqueued : List Nat
  nextId : Nat
  triggers : Nat
deriving DecidableEq

/-- State at process start: empty deque, `is_generating = False`. -/
def initQ : QState := ⟨[], false, [], [], [], 0, 0⟩

/-- Transition labels: an enqueue (`task_queue.append` plus
`asyncio.create_task(process_queue())`), a spawned `process_queue` task
running its critical section, a running job resolving with an outcome
(its `finally` block included), and one sweep of `queue_cleanup_task`. -/
inductive QLabel where
  | enq
  | trigger
  | finish (j : Nat) (o : Outcome)
  | watchdog
deriving DecidableEq

/-- The transition function; `none` when the label is not enabled. -/
def qstep (s : QState) : QLabel → Option QState
  | .enq =>
    some { s with
      queue := s.queue ++ [s.nextId],
      enqueued := s.enqueued ++ [s.nextId],
      nextId := s.nextId + 1,
      triggers := s.triggers + 1 }
  | .trigger =>
    if s.triggers = 0 then none
    else if s.generating then
      some { s with triggers := s.triggers - 1 }
    else
      match s.queue with
      | [] => some { s with triggers := s.triggers - 1 }
      | h :: rest =>
        some { s with
          triggers := s.triggers - 1,
          generating := true,
          running := s.running ++ [h],
          queue := rest }
  | .finish j o =>
    if j ∈ s.running then
      some { s with
        running := s.running.erase j,
        generating := false,
        delivered := s.delivered ++ [(j, o)],
        triggers := if s.queue.isEmpty then s.triggers else s.triggers + 1 }
    else none
  | .watchdog =>
    if ¬ s.generating ∧ s.queue ≠ [] then some { s with triggers := s.triggers + 1 }
    else some s

/-- Reachability from the process-start state under any interleaving of
enqueues, dispatch triggers, job resolutions and watchdog sweeps. -/
inductive QReach : QState → Prop where
  | init : QReach initQ
  | step {s s1 : QState} {l : QLabel} : QReach s → qstep s l = some s1 → QReach s1

/-- The inductive invariant of the queue system:
(1) exactly one job is mid-run iff `is_generating` is set;
(2) the enqueue history is partitioned, in order, into delivered jobs,
    the running job, and the pending queue;
(3) whenever the system is idle with pending work, a dispatch trigger is
    outstanding;
(4) all recorded ids are below the arrival counter;
(5) the enqueue history has no duplicates. -/
def QInv (s : QState) : Prop :=
  s.running.length = (if s.generating then 1 else 0) ∧
  s.enqueued = s.delivered.map Prod.fst ++ s.running ++ s.queue ∧
  (s.generating = false → s.queue ≠ [] → 1 ≤ s.triggers) ∧
  (∀ x ∈ s.enqueued, x < s.nextId) ∧
  s.enqueued.Nodup

/-- The invariant holds at process start. -/
theorem qinv_init : QInv initQ := by
  refine ⟨rfl, rfl, ?_, ?_, ?_⟩ <;> simp [initQ]

/-- The invariant is preserved by every transition. -/
theorem qinv_step {s s1 : QState} {l : QLabel} (ih : QInv s)
    (hstep : qstep s l = some s1) : QInv s1 := by
  obtain ⟨ih1, ih2, ih3, ih4, ih5⟩ := ih
  cases l with
  | enq =>
    simp only [qstep, Option.some.injEq] at hstep
    subst hstep
    refine ⟨ih1, ?_, ?_, ?_, ?_⟩
    · show s.enqueued ++ [s.nextId] =
        List.map Prod.fst s.delivered ++ s.running ++ (s.queue ++ [s.nextId])
      rw [ih2]
      simp [List.append_assoc]
    · intro _ _
      show 1 ≤ s.triggers + 1
      omega
    · intro x hx
      show x < s.nextId + 1
      rcases List.mem_append.mp hx with hx | hx
      · exact Nat.lt_succ_of_lt (ih4 x hx)
      · simp only [List.mem_singleton] at hx
        omega
    · show (s.enqueued ++ [s.nextId]).Nodup
      refine List.Nodup.append ih5 (List.nodup_singleton _) ?_
      intro a ha hb
      simp only [List.mem_singleton] at hb
      subst hb
      exact absurd (ih4 _ ha) (lt_irrefl _)
  | trigger =>
    simp only [qstep] at hstep
    split at hstep
    · exact absurd hstep (by simp)
    · split at hstep
      · rename_i h0 hg
        simp only [Option.some.injEq] at hstep
        subst hstep
        refine ⟨ih1, ih2, ?_, ih4, ih5⟩
        intro hgen _
        rw [hg] at hgen
        exact absurd hgen (by simp)
      · rename_i h0 hg
        split at hstep
        · rename_i hq
          simp only [Option.some.injEq] at hstep
          subst hstep
          refine ⟨ih1, ih2, ?_, ih4, ih5⟩
          intro _ hqne
          exact absurd hq hqne
        · rename_i h rest hq
          simp only [Option.some.injEq] at hstep
          subst hstep
          have hgen : s.generating = false := by
            cases hsg : s.generating
            · rfl
            · exact absurd hsg hg
          have hrun : s.running = [] := by
            rw [hgen] at ih1
            simp only [Bool.false_eq_true, if_false] at ih1
            exact List.eq_nil_of_length_eq_zero ih1
          refine ⟨?_, ?_, ?_, ih4, ih5⟩
          · show (s.running ++ [h]).length = if true = true then 1 else 0
            simp [hrun]
          · show s.enqueued = List.map Prod.fst s.delivered ++ (s.running ++ [h]) ++ rest
            rw [ih2, hq, hrun]
            simp
          · intro hgenc _
            exact absurd hgenc (by simp)
  | finish j o =>
    simp only [qstep] at hstep
    split at hstep
    · rename_i hmem
      simp only [Option.some.injEq] at hstep
      subst hstep
      have hgen : s.generating = true := by
        cases hsg : s.generating
        · rw [hsg] at ih1
          simp only [Bool.false_eq_true, if_false] at ih1
          rw [List.eq_nil_of_length_eq_zero ih1] at hmem
          exact absurd hmem (List.not_mem_nil j)
        · rfl
      have hlen : s.running.length = 1 := by
        rw [hgen] at ih1
        simpa using ih1
      obtain ⟨a, ha⟩ := List.length_eq_one.mp hlen
      have hja : j = a := by
        rw [ha] at hmem
        simpa using hmem
      subst hja
      refine ⟨?_, ?_, ?_, ih4, ih5⟩
      · show (s.running.erase j).length = if false = true then 1 else 0
        simp [ha]
      · show s.enqueued =
          List.map Prod.fst (s.delivered ++ [(j, o)]) ++ s.running.erase j ++ s.queue
        rw [ih2, ha]
        simp
      · intro _ hqne
        have hne : s.queue.isEmpty = false := by
          cases hsq : s.queue
          · exact absurd hsq hqne
          · rfl
        show 1 ≤ if s.queue.isEmpty = true then s.triggers else s.triggers + 1
        rw [hne]
        simp
    · exact absurd hstep (by simp)
  | watchdog =>
    simp only [qstep] at hstep
    split at hstep
    · simp only [Option.some.injEq] at hstep
      subst hstep
      refine ⟨ih1, ih2, ?_, ih4, ih5⟩
      intro _ _
      show 1 ≤ s.triggers + 1
      omega
    · simp only [Option.some.injEq] at hstep
      subst hstep
      exact ⟨ih1, ih2, ih3, ih4, ih5⟩

/-- Every reachable state satisfies the invariant. -/
theorem qinv_reach {s : QState} (h : QReach s) : QInv s := by
  induction h with
  | init => exact qinv_init
  | step _ hstep ih => exact qinv_step ih hstep

/-! ## Claim theorems -/

mutual

/-- A deep copy of JSON-like data is equal to the original value. -/
theorem deepcopy_eq : ∀ v : JVal, deepcopy v = v
  | .null => rfl
  | .bool _ => rfl
  | .num _ => rfl
  | .str _ => rfl
  | .arr a => by rw [deepcopy, deepcopyArr_eq]
  | .obj o => by rw [deepcopy, deepcopyObj_eq]

/-- Lemma `deepcopy_eq` for array contents. -/
theorem deepcopyArr_eq : ∀ a : JArr, deepcopyArr a = a
  | .nil => rfl
  | .cons x rest => by rw [deepcopyArr, deepcopy_eq x, deepcopyArr_eq rest]

/-- Lemma `deepcopy_eq` for object contents. -/
theorem deepcopyObj_eq : ∀ o : JObj, deepcopyObj o = o
  | .nil => rfl
  | .cons k x rest => by rw [deepcopyObj, deepcopy_eq x, deepcopyObj_eq rest]

end

/-- Claim C10: `process_workflow` never mutates its `workflow_template`
argument — it deep-copies the template (the copy being equal to the
original value) and builds the returned workflow as a fresh structure by
placeholder substitution over that copy, so the result is exactly the
placeholder substitution of the unchanged template. -/
theorem c10_process_workflow_pure (t : JVal) (params : List (String × JVal)) :
    deepcopy t = t ∧
    process_workflow t params = replace_placeholders (deepcopy t) params ∧
    process_workflow t params = replace_placeholders t params := by
  refine ⟨deepcopy_eq t, rfl, ?_⟩
  rw [process_workflow, deepcopy_eq]

/-- Claim C3: a `status` frame whose `queue_remaining` counter equals zero
resolves success (after the history lookup is populated) only when at least
one node has already been recorded as finished; with an empty finished-node
set the frame merely updates the counter and the loop keeps waiting. -/
theorem c3_status_needs_finished_node (promptId : String) (st : CState)
    (m hist : JVal) (einfo : JObj) (qr : JVal)
    (htype : m.get "type" = some (.str "status"))
    (hinfo : ((m.getD "data").getD "status").getD "exec_info" = JVal.obj einfo)
    (hqr : einfo.get "queue_remaining" = some qr)
    (hz : pyEqZero qr = true) :
    (st.finishedNodes = [] →
      procMsg promptId st m hist = .cont { st with queueRemaining := some qr }) ∧
    (st.finishedNodes ≠ [] → truthy hist = true →
      procMsg promptId st m hist = .resolve true (some (hist.getD "outputs"))) := by
  constructor
  · intro hfin
    simp only [procMsg, htype, hinfo, hqr, hz, hfin]
    simp
  · intro hfin hh
    simp only [procMsg, htype, hinfo, hqr, hz, hfin, hh]
    simp [hfin]

/-- Claim C4: an `executed` frame for the awaited prompt whose output
contains an artifact listing, combined with a populated history record,
resolves success and returns exactly the history record's `outputs`
mapping. -/
theorem c4_artifact_listing_resolves (promptId : String) (st : CState)
    (m hist outs : JVal)
    (htype : m.get "type" = some (.str "executed"))
    (hpid : (m.getD "data").get "prompt_id" = some (.str promptId) ∨
      truthyOpt ((m.getD "data").get "prompt_id") = false)
    (himg : hasImages ((m.getD "data").getD "output") = true)
    (hh : truthy hist = true)
    (hout : hist.get "outputs" = some outs) :
    procMsg promptId st m hist = .resolve true (some outs) := by
  have hgetd : hist.getD "outputs" = outs := by
    simp only [JVal.getD, hout]
  rcases hpid with hpid | hpid
  · simp only [procMsg, htype, hpid, himg, hh, hgetd]
    simp
  · simp only [procMsg, htype, hpid, himg, hh, hgetd]
    simp

/-- Claim C9: only `executed` frames are filtered by prompt id — an
`executed` frame with a truthy, different prompt id is skipped with the
state unchanged, while an `execution_error` frame resolves failure with no
prompt-id check at all, so an error frame referring to a different prompt
still fails the awaited job. -/
theorem c9_prompt_id_filter (promptId : String) :
    (∀ (st : CState) (m hist : JVal),
      m.get "type" = some (.str "execution_error") →
      procMsg promptId st m hist = .resolve false none) ∧
    (∀ (st : CState) (m hist pid : JVal),
      m.get "type" = some (.str "executed") →
      (m.getD "data").get "prompt_id" = some pid →
      truthy pid = true → pid ≠ .str promptId →
      procMsg promptId st m hist = .cont st) := by
  constructor
  · intro st m hist htype
    simp only [procMsg, htype]
    simp
  · intro st m hist pid htype hpid htr hne
    simp only [procMsg, htype, hpid]
    simp [truthyOpt, htr, hne]

/-- Claim C5 counterexample: at elapsed time exactly equal to the timeout
budget the loop does NOT resolve timeout — the check on line 232 of
`comfyui_client.py` is strict (`elapsed > timeout`), so a trace whose only
check happens at `elapsed = timeout` leaves the loop waiting (and the
polling loop likewise keeps polling). -/
theorem c5_equal_elapsed_keeps_waiting :
    wsLoop "p" 300 ⟨none, []⟩ [⟨300, Recv.timeout, .null⟩] = WaitOut.exhausted ∧
    wsLoop "p" 300 ⟨none, []⟩ [⟨300, Recv.timeout, .null⟩] ≠ WaitOut.resolved false none ∧
    pollLoop 300 [⟨300, .null⟩] = none := by
  refine ⟨?_, ?_, ?_⟩ <;> decide

/-- Claim C5 (amended): whenever the elapsed time at a between-receives
check strictly exceeds the timeout budget, `wait_for_completion` resolves
timeout (returned as the failure outcome `(False, None)`) regardless of the
stream's state, and `_poll_history` does the same at its own check. -/
theorem c5_timeout_regardless_of_stream (promptId : String) (timeout : ℚ)
    (st : CState) (s : WStep) (rest : List WStep) (p : PStep) (prest : List PStep)
    (hs : timeout < s.elapsed) (hp : timeout < p.elapsed) :
    wsLoop promptId timeout st (s :: rest) = WaitOut.resolved false none ∧
    pollLoop timeout (p :: prest) = some (false, none) := by
  constructor
  · simp only [wsLoop, wsStep, if_pos hs]
  · simp only [pollLoop, if_pos hp]

/-- Witness for the amended C5 theorem at a concrete trace. -/
theorem c5_timeout_regardless_of_stream_witness :
    (300 : ℚ) < 301 ∧
    wsLoop "p" 300 ⟨none, []⟩ [⟨301, Recv.timeout, .null⟩] = WaitOut.resolved false none ∧
    pollLoop 300 [⟨301, .null⟩] = some (false, none) := by
  have h := c5_timeout_regardless_of_stream "p" 300 ⟨none, []⟩
    ⟨301, Recv.timeout, .null⟩ [] ⟨301, .null⟩ [] (by decide) (by decide)
  exact ⟨by decide, h.1, h.2⟩

/-- Claim C6: when the stream subscription cannot be opened, or a transport
error escapes the receive loop, `wait_for_completion` runs `_poll_history`;
the polling loop resolves success with the history record's outputs as soon
as a populated record (truthy, with an `outputs` field) is served, resolves
timeout once the budget is exceeded, and every resolution it produces is
one of exactly these two forms — it consumes no stream input at all. -/
theorem c6_polling_fallback :
    (∀ (promptId : String) (timeout : ℚ) (steps : List WStep) (ps : List PStep),
      wait_for_completion promptId timeout false steps ps = pollLoop timeout ps) ∧
    (∀ (promptId : String) (timeout : ℚ) (steps : List WStep) (ps : List PStep),
      wsLoop promptId timeout ⟨none, []⟩ steps = WaitOut.fallback →
      wait_for_completion promptId timeout true steps ps = pollLoop timeout ps) ∧
    (∀ (timeout : ℚ) (p : PStep) (rest : List PStep) (o : JVal),
      ¬ timeout < p.elapsed → truthy p.hist = true → p.hist.get "outputs" = some o →
      pollLoop timeout (p :: rest) = some (true, some o)) ∧
    (∀ (timeout : ℚ) (p : PStep) (rest : List PStep),
      timeout < p.elapsed → pollLoop timeout (p :: rest) = some (false, none)) ∧
    (∀ (timeout : ℚ) (ps : List PStep) (r : Bool × Option JVal),
      pollLoop timeout ps = some r →
      r = (false, none) ∨ ∃ o, r = (true, some o)) := by
  refine ⟨?_, ?_, ?_, ?_, ?_⟩
  · intro promptId timeout steps ps
    simp [wait_for_completion]
  · intro promptId timeout steps ps hfb
    simp [wait_for_completion, hfb]
  · intro timeout p rest o hlt hh hout
    have hkey : p.hist.hasKey "outputs" = true := by
      simp [JVal.hasKey, hout]
    have hgetd : p.hist.getD "outputs" = o := by
      simp only [JVal.getD, hout]
    simp [pollLoop, if_neg hlt, hh, hkey, hgetd]
  · intro timeout p rest hlt
    simp only [pollLoop, if_pos hlt]
  · intro timeout ps r
    induction ps with
    | nil => intro h; exact absurd h (by simp [pollLoop])
    | cons p rest ih =>
      intro h
      simp only [pollLoop] at h
      split at h
      · left
        simpa using h.symm
      · split at h
        · right
          exact ⟨p.hist.getD "outputs", by simpa using h.symm⟩
        · exact ih h

/-- Witness for C3 at a concrete `status` frame with `queue_remaining = 0`
and a populated history record. -/
theorem c3_status_needs_finished_node_witness :
    procMsg "p" ⟨none, []⟩
      (.obj (.cons "type" (.str "status") (.cons "data" (.obj (.cons "status"
        (.obj (.cons "exec_info" (.obj (.cons "queue_remaining" (.num 0) .nil)) .nil))
        .nil)) .nil)))
      (.obj (.cons "outputs" (.obj .nil) .nil)) =
      StepRes.cont ⟨some (.num 0), []⟩ ∧
    procMsg "p" ⟨none, [JVal.str "7"]⟩
      (.obj (.cons "type" (.str "status") (.cons "data" (.obj (.cons "status"
        (.obj (.cons "exec_info" (.obj (.cons "queue_remaining" (.num 0) .nil)) .nil))
        .nil)) .nil)))
      (.obj (.cons "outputs" (.obj .nil) .nil)) =
      StepRes.resolve true (some (.obj .nil)) := by
  constructor
  · exact (c3_status_needs_finished_node "p" ⟨none, []⟩
      (.obj (.cons "type" (.str "status") (.cons "data" (.obj (.cons "status"
        (.obj (.cons "exec_info" (.obj (.cons "queue_remaining" (.num 0) .nil)) .nil))
        .nil)) .nil)))
      (.obj (.cons "outputs" (.obj .nil) .nil))
      (.cons "queue_remaining" (.num 0) .nil) (.num 0)
      (by decide) (by decide) (by decide) (by decide)).1 rfl
  · exact (c3_status_needs_finished_node "p" ⟨none, [JVal.str "7"]⟩
      (.obj (.cons "type" (.str "status") (.cons "data" (.obj (.cons "status"
        (.obj (.cons "exec_info" (.obj (.cons "queue_remaining" (.num 0) .nil)) .nil))
        .nil)) .nil)))
      (.obj (.cons "outputs" (.obj .nil) .nil))
      (.cons "queue_remaining" (.num 0) .nil) (.num 0)
      (by decide) (by decide) (by decide) (by decide)).2 (by decide) (by decide)

/-- Witness for C4 at a concrete `executed` frame carrying an artifact
listing, with a matching populated history record. -/
theorem c4_artifact_listing_resolves_witness :
    procMsg "p" ⟨none, []⟩
      (.obj (.cons "type" (.str "executed") (.cons "data" (.obj
        (.cons "prompt_id" (.str "p") (.cons "node" (.str "9") (.cons "output"
          (.obj (.cons "images" (.arr (.cons (.obj (.cons "filename" (.str "a.png") .nil))
            .nil)) .nil)) .nil)))) .nil)))
      (.obj (.cons "outputs" (.obj (.cons "9" (.obj .nil) .nil)) .nil)) =
      StepRes.resolve true (some (.obj (.cons "9" (.obj .nil) .nil))) := by
  exact c4_artifact_listing_resolves "p" ⟨none, []⟩
    (.obj (.cons "type" (.str "executed") (.cons "data" (.obj
      (.cons "prompt_id" (.str "p") (.cons "node" (.str "9") (.cons "output"
        (.obj (.cons "images" (.arr (.cons (.obj (.cons "filename" (.str "a.png") .nil))
          .nil)) .nil)) .nil)))) .nil)))
    (.obj (.cons "outputs" (.obj (.cons "9" (.obj .nil) .nil)) .nil))
    (.obj (.cons "9" (.obj .nil) .nil))
    (by decide) (Or.inl (by decide)) (by decide) (by decide) (by decide)

/-- Witness for C9: an `execution_error` frame naming a different prompt
still resolves failure, while an `executed` frame naming a different prompt
is skipped. -/
theorem c9_prompt_id_filter_witness :
    procMsg "p" ⟨none, []⟩
      (.obj (.cons "type" (.str "execution_error") (.cons "data"
        (.obj (.cons "prompt_id" (.str "other") .nil)) .nil)))
      (.obj .nil) = StepRes.resolve false none ∧
    procMsg "p" ⟨none, []⟩
      (.obj (.cons "type" (.str "executed") (.cons "data"
        (.obj (.cons "prompt_id" (.str "other") .nil)) .nil)))
      (.obj .nil) = StepRes.cont ⟨none, []⟩ := by
  constructor
  · exact (c9_prompt_id_filter "p").1 ⟨none, []⟩
      (.obj (.cons "type" (.str "execution_error") (.cons "data"
        (.obj (.cons "prompt_id" (.str "other") .nil)) .nil)))
      (.obj .nil) (by decide)
  · exact (c9_prompt_id_filter "p").2 ⟨none, []⟩
      (.obj (.cons "type" (.str "executed") (.cons "data"
        (.obj (.cons "prompt_id" (.str "other") .nil)) .nil)))
      (.obj .nil) (.str "other") (by decide) (by decide) (by decide) (by decide)

/-- Witness for C6 at concrete traces: a failed connection, a transport
error mid-stream, a populated record after two polls, and a poll past the
budget. -/
theorem c6_polling_fallback_witness :
    wait_for_completion "p" 300 false [] [⟨0, .null⟩] = pollLoop 300 [⟨0, .null⟩] ∧
    wait_for_completion "p" 300 true [⟨0, Recv.err, .null⟩] [⟨0, .null⟩] =
      pollLoop 300 [⟨0, .null⟩] ∧
    pollLoop 300 [⟨0, .null⟩, ⟨2, .null⟩,
      ⟨4, .obj (.cons "outputs" (.obj .nil) .nil)⟩] = some (true, some (.obj .nil)) ∧
    pollLoop 300 [⟨301, .null⟩] = some (false, none) ∧
    ((false, none) = ((false, none) : Bool × Option JVal) ∨
      ∃ o, ((false, none) : Bool × Option JVal) = (true, some o)) := by
  refine ⟨?_, ?_, ?_, ?_, ?_⟩
  · exact c6_polling_fallback.1 "p" 300 [] [⟨0, .null⟩]
  · exact c6_polling_fallback.2.1 "p" 300 [⟨0, Recv.err, .null⟩] [⟨0, .null⟩] (by decide)
  · have h1 : pollLoop 300 [⟨0, .null⟩, ⟨2, .null⟩,
        ⟨4, .obj (.cons "outputs" (.obj .nil) .nil)⟩] =
        pollLoop 300 [⟨4, .obj (.cons "outputs" (.obj .nil) .nil)⟩] := by decide
    rw [h1]
    exact c6_polling_fallback.2.2.1 300 ⟨4, .obj (.cons "outputs" (.obj .nil) .nil)⟩ []
      (.obj .nil) (by decide) (by decide) (by decide)
  · exact c6_polling_fallback.2.2.2.1 300 ⟨301, .null⟩ [] (by decide)
  · exact c6_polling_fallback.2.2.2.2 300 [⟨301, .null⟩] (false, none) (by decide)

/-- Claim C8: `get_samplers`/`get_schedulers` never propagate an error — a
failed `get_object_info` yields one hard-coded default list, a schema with
missing or empty fields yields the other — and after any first call the
result is cached, so a later call returns the cached list regardless of the
backend. -/
theorem c8_metadata_defaults_and_cache :
    (∀ e : Unit, get_samplers none (.error e) =
      (defaultSamplersErr, some defaultSamplersErr)) ∧
    (∀ e : Unit, get_schedulers none (.error e) =
      (defaultSchedulersErr, some defaultSchedulersErr)) ∧
    (∀ info : JVal, extractField "sampler_name" info = none →
      get_samplers none (.ok info) = (defaultSamplersFull, some defaultSamplersFull)) ∧
    (∀ info : JVal, extractField "scheduler" info = none →
      get_schedulers none (.ok info) = (defaultSchedulersFull, some defaultSchedulersFull)) ∧
    (∀ f : Except Unit JVal, (get_samplers none f).2 = some (get_samplers none f).1) ∧
    (∀ f : Except Unit JVal, (get_schedulers none f).2 = some (get_schedulers none f).1) ∧
    (∀ (l : JVal) (f : Except Unit JVal), get_samplers (some l) f = (l, some l)) ∧
    (∀ (l : JVal) (f : Except Unit JVal), get_schedulers (some l) f = (l, some l)) := by
  refine ⟨fun e => rfl, fun e => rfl, ?_, ?_, ?_, ?_, fun l f => rfl, fun l f => rfl⟩
  · intro info hx
    simp [get_samplers, hx]
  · intro info hx
    simp [get_schedulers, hx]
  · intro f
    cases f with
    | error e => rfl
    | ok info =>
      cases hx : extractField "sampler_name" info <;> simp [get_samplers, hx]
  · intro f
    cases f with
    | error e => rfl
    | ok info =>
      cases hx : extractField "scheduler" info <;> simp [get_schedulers, hx]

/-- Witness for C8 at concrete inputs: an erroring backend and an empty
capability map. -/
theorem c8_metadata_defaults_and_cache_witness :
    get_samplers none (.error ()) = (defaultSamplersErr, some defaultSamplersErr) ∧
    extractField "sampler_name" (.obj .nil) = none ∧
    get_samplers none (.ok (.obj .nil)) = (defaultSamplersFull, some defaultSamplersFull) ∧
    extractField "scheduler" (.obj .nil) = none ∧
    get_schedulers none (.ok (.obj .nil)) =
      (defaultSchedulersFull, some defaultSchedulersFull) ∧
    get_samplers (some (.arr .nil)) (.error ()) = (.arr .nil, some (.arr .nil)) := by
  refine ⟨c8_metadata_defaults_and_cache.1 (), by decide, ?_, by decide, ?_, ?_⟩
  · exact c8_metadata_defaults_and_cache.2.2.1 (.obj .nil) (by decide)
  · exact c8_metadata_defaults_and_cache.2.2.2.1 (.obj .nil) (by decide)
  · exact c8_metadata_defaults_and_cache.2.2.2.2.2.2.1 (.arr .nil) (.error ())

/-- Claim C1: in every reachable state the enqueue history is exactly the
delivered results (in delivery order) followed by the running job and the
pending queue — so results are delivered in enqueue order, each job gets at
most one result and none is lost while pending — delivery is never
duplicated, an idle state with pending work always has a dispatch trigger
outstanding, and the dispatch step pops precisely the head of the FIFO. -/
theorem c1_fifo_exactly_one_result (s : QState) (h : QReach s) :
    s.enqueued = s.delivered.map Prod.fst ++ s.running ++ s.queue ∧
    (s.delivered.map Prod.fst).Nodup ∧
    (s.generating = false → s.queue ≠ [] → 1 ≤ s.triggers) ∧
    (∀ hd tl, s.queue = hd :: tl → s.generating = false → 1 ≤ s.triggers →
      qstep s QLabel.trigger =
        some { s with triggers := s.triggers - 1, generating := true, running := s.running ++ [hd], queue := tl }) := by
  obtain ⟨i1, i2, i3, i4, i5⟩ := qinv_reach h
  refine ⟨i2, ?_, i3, ?_⟩
  · have hsub : List.Sublist (s.delivered.map Prod.fst) s.enqueued := by
      rw [i2]
      exact (List.sublist_append_left _ _).trans (List.sublist_append_left _ _)
    exact List.Nodup.sublist hsub i5
  · intro hd tl hq hg ht
    have h0 : ¬ s.triggers = 0 := by omega
    simp [qstep, h0, hg, hq]

/-- Witness for C1 after the concrete run enqueue, dispatch, finish. -/
theorem c1_fifo_exactly_one_result_witness :
    ([0] : List ℕ) = List.map Prod.fst [((0 : ℕ), Outcome.success)] ++ [] ++ [] ∧
    (List.map Prod.fst [((0 : ℕ), Outcome.success)]).Nodup := by
  have h1 : qstep initQ QLabel.enq = some ⟨[0], false, [], [], [0], 1, 1⟩ := by decide
  have h2 : qstep ⟨[0], false, [], [], [0], 1, 1⟩ QLabel.trigger =
      some ⟨[], true, [0], [], [0], 1, 0⟩ := by decide
  have h3 : qstep ⟨[], true, [0], [], [0], 1, 0⟩ (QLabel.finish 0 Outcome.success) =
      some ⟨[], false, [], [(0, Outcome.success)], [0], 1, 0⟩ := by decide
  have hr : QReach ⟨[], false, [], [(0, Outcome.success)], [0], 1, 0⟩ :=
    QReach.step (QReach.step (QReach.step QReach.init h1) h2) h3
  have h := c1_fifo_exactly_one_result _ hr
  exact ⟨h.1, h.2.1⟩

/-- Claim C2: at most one job is in flight in every reachable state, and
the dispatch critical section is a no-op (it only consumes the trigger)
whenever the in-flight flag is already set or the pending queue is empty,
so a concurrent second dispatch trigger never starts a second job. -/
theorem c2_single_in_flight (s : QState) :
    (QReach s → s.running.length ≤ 1) ∧
    (1 ≤ s.triggers → s.generating = true →
      qstep s QLabel.trigger = some { s with triggers := s.triggers - 1 }) ∧
    (1 ≤ s.triggers → s.queue = [] →
      qstep s QLabel.trigger = some { s with triggers := s.triggers - 1 }) := by
  refine ⟨?_, ?_, ?_⟩
  · intro h
    have i1 := (qinv_reach h).1
    rw [i1]
    cases s.generating <;> simp
  · intro ht hg
    have h0 : ¬ s.triggers = 0 := by omega
    simp [qstep, h0, hg]
  · intro ht hq
    have h0 : ¬ s.triggers = 0 := by omega
    cases hg : s.generating <;> simp [qstep, h0, hg, hq]

/-- Witness for C2 at concrete states: one job running, a redundant
trigger consumed as a no-op, and a trigger on an empty queue. -/
theorem c2_single_in_flight_witness :
    (QState.mk [] true [0] [] [0] 1 0).running.length ≤ 1 ∧
    qstep ⟨[], true, [0], [], [0], 1, 1⟩ QLabel.trigger =
      some ⟨[], true, [0], [], [0], 1, 0⟩ ∧
    qstep ⟨[], false, [], [], [], 0, 1⟩ QLabel.trigger =
      some ⟨[], false, [], [], [], 0, 0⟩ := by
  refine ⟨?_, ?_, ?_⟩
  · have h1 : qstep initQ QLabel.enq = some ⟨[0], false, [], [], [0], 1, 1⟩ := by decide
    have h2 : qstep ⟨[0], false, [], [], [0], 1, 1⟩ QLabel.trigger =
        some ⟨[], true, [0], [], [0], 1, 0⟩ := by decide
    have hr : QReach ⟨[], true, [0], [], [0], 1, 0⟩ :=
      QReach.step (QReach.step QReach.init h1) h2
    exact (c2_single_in_flight _).1 hr
  · exact (c2_single_in_flight _).2.1 (by decide) rfl
  · exact (c2_single_in_flight _).2.2 (by decide) rfl

/-- Claim C7: a job resolution — the `finally` block runs for success,
timeout and unexpected errors alike — leaves the in-flight flag cleared and
the pending queue untouched, re-arms a dispatch trigger whenever pending
work remains, and that trigger then dispatches the next head job; a single
failing job never stalls the queue. -/
theorem c7_error_clears_flag_and_rearms (s s1 : QState) (j : ℕ) (o : Outcome)
    (hstep : qstep s (QLabel.finish j o) = some s1) :
    s1.generating = false ∧ s1.queue = s.queue ∧
    (s1.queue ≠ [] → 1 ≤ s1.triggers) ∧
    (∀ hd tl, s1.queue = hd :: tl →
      qstep s1 QLabel.trigger =
        some { s1 with triggers := s1.triggers - 1, generating := true, running := s1.running ++ [hd], queue := tl }) := by
  simp only [qstep] at hstep
  split at hstep
  · rename_i hmem
    simp only [Option.some.injEq] at hstep
    subst hstep
    refine ⟨rfl, rfl, ?_, ?_⟩
    · intro hqne
      have hne : s.queue.isEmpty = false := by
        cases hsq : s.queue
        · exact absurd hsq hqne
        · rfl
      show 1 ≤ if s.queue.isEmpty = true then s.triggers else s.triggers + 1
      rw [hne]
      simp
    · intro hd tl hq
      have hq2 : s.queue = hd :: tl := hq
      have hne : s.queue.isEmpty = false := by rw [hq2]; rfl
      have h0 : ¬ (if s.queue.isEmpty = true then s.triggers else s.triggers + 1) = 0 := by
        rw [hne]
        simp
      simp [qstep, h0, hq2, hne]
  · exact absurd hstep (by simp)

/-- Witness for C7: a job fails while another request is pending; the flag
is clear, a trigger is armed, and it dispatches the next job. -/
theorem c7_error_clears_flag_and_rearms_witness :
    qstep ⟨[1], true, [0], [], [0, 1], 2, 0⟩ (QLabel.finish 0 Outcome.failure) =
      some ⟨[1], false, [], [(0, Outcome.failure)], [0, 1], 2, 1⟩ ∧
    (QState.mk [1] false [] [(0, Outcome.failure)] [0, 1] 2 1).generating = false ∧
    1 ≤ (QState.mk [1] false [] [(0, Outcome.failure)] [0, 1] 2 1).triggers ∧
    qstep ⟨[1], false, [], [(0, Outcome.failure)], [0, 1], 2, 1⟩ QLabel.trigger =
      some ⟨[], true, [1], [(0, Outcome.failure)], [0, 1], 2, 0⟩ := by
  have hstep : qstep ⟨[1], true, [0], [], [0, 1], 2, 0⟩ (QLabel.finish 0 Outcome.failure) =
      some ⟨[1], false, [], [(0, Outcome.failure)], [0, 1], 2, 1⟩ := by decide
  have h := c7_error_clears_flag_and_rearms _ _ 0 Outcome.failure hstep
  exact ⟨hstep, h.1, h.2.2.1 (by decide), h.2.2.2 1 [] rfl⟩
